import Mathlib

/-!
Verification of the message-cache subsystem of the tlgrm repository.

The development shallowly embeds the two cache backends:

* `MessageCache` — the in-memory backend of `src/pythonMCP/src/core/cache.py`:
  per-chat ordered maps (`collections.OrderedDict`) with LRU eviction and
  lazy TTL filtering, modelled as association lists in recency order
  (head = least recently touched, tail = most recently touched).

* `SQLiteCache` — the persistent backend of
  `src/pythonMCP/src/core/sqlite_cache.py`: the `cached_messages` table, the
  `messages_fts` external-content FTS5 index maintained by AFTER
  INSERT/DELETE triggers, and the `schema_version` table, modelled as lists
  of rows.  SQLite semantics relevant to the embedding (verified against the
  engine): `INSERT OR REPLACE` deletes a conflicting primary-key row
  *without firing the delete trigger* (the `recursive_triggers` pragma is
  never enabled by the source), assigns the fresh row the rowid
  `max(rowid)+1` computed over the pre-statement table, and then fires the
  AFTER INSERT trigger; a plain `DELETE` fires the AFTER DELETE trigger for
  every deleted row, and the trigger removes the index entry carrying
  `OLD.rowid`.

Payloads (`message_data: Dict[str, Any]` in the source, arbitrary Python
values) are modelled by `PyValue`; the serialized JSON text stored in the
`message_data` column is modelled by its parsed `Json` tree, since
`json.dumps` output always parses back (`json.loads` failure can only come
from external file corruption, which no operation modelled here produces).
`json.dumps` on a finite (acyclic) Python value fails exactly by raising
`TypeError` on a non-serializable object, which `PyValue.pyObj` represents.
Timestamps (`time.time()`) are modelled as integers.
-/

namespace Tlgrm

/-- Python values that can be passed as a message payload.  `pyObj` stands
for an arbitrary Python object that `json.dumps` cannot encode. -/
inductive PyValue where
  | pyNone
  | pyBool (b : Bool)
  | pyInt (n : Int)
  | pyStr (s : String)
  | pyList (xs : List PyValue)
  | pyDict (kvs : List (String × PyValue))
  | pyObj (descr : String)

/-- JSON trees: the image of `json.dumps` on serializable payloads, also
used to model the TEXT stored in the `message_data` column. -/
inductive Json where
  | jNull
  | jBool (b : Bool)
  | jInt (n : Int)
  | jStr (s : String)
  | jArr (xs : List Json)
  | jObj (kvs : List (String × Json))

/-- Python exceptions relevant to the embedded code paths. -/
inductive PyErr where
  | typeError
  | valueError
  | operationalError
deriving DecidableEq

mutual

/-- Embedding of `json.dumps` on an acyclic Python value: succeeds on
JSON-serializable trees, raises `TypeError` on a non-serializable object. -/
def json_dumps : PyValue → Except PyErr Json
  | .pyNone => .ok .jNull
  | .pyBool b => .ok (.jBool b)
  | .pyInt n => .ok (.jInt n)
  | .pyStr s => .ok (.jStr s)
  | .pyList xs => (json_dumpsArr xs).map .jArr
  | .pyDict kvs => (json_dumpsFieldList kvs).map .jObj
  | .pyObj _ => .error .typeError

def json_dumpsArr : List PyValue → Except PyErr (List Json)
  | [] => .ok []
  | v :: tl => do
    let j ← json_dumps v
    let js ← json_dumpsArr tl
    return j :: js

def json_dumpsFieldList : List (String × PyValue) → Except PyErr (List (String × Json))
  | [] => .ok []
  | (k, v) :: tl => do
    let j ← json_dumps v
    let js ← json_dumpsFieldList tl
    return (k, j) :: js

end

mutual

/-- Embedding of `json.loads` applied to a stored `message_data` column;
the column always holds `json.dumps` output, which decodes back to the
corresponding Python value. -/
def json_loads : Json → PyValue
  | .jNull => .pyNone
  | .jBool b => .pyBool b
  | .jInt n => .pyInt n
  | .jStr s => .pyStr s
  | .jArr xs => .pyList (json_loadsArr xs)
  | .jObj kvs => .pyDict (json_loadsFieldList kvs)

def json_loadsArr : List Json → List PyValue
  | [] => []
  | j :: tl => json_loads j :: json_loadsArr tl

def json_loadsFieldList : List (String × Json) → List (String × PyValue)
  | [] => []
  | (k, j) :: tl => (k, json_loads j) :: json_loadsFieldList tl

end

/-- Embedding of SQLite `json_extract(doc, '$.key')`: the value stored
under a top-level object key, or SQL NULL. -/
def json_extract (j : Json) (key : String) : Option Json :=
  match j with
  | .jObj kvs => kvs.lookup key
  | _ => none

/-- Cache configuration as consumed by both backends: `max_messages`
(`max_messages_per_chat`) and `ttl_seconds` (0 disables expiration). -/
structure CacheConfig where
  max_messages : Nat
  ttl_seconds : Nat

/-- One `CachedMessage` record of the in-memory backend
(`cache.py`, dataclass `CachedMessage`). -/
structure CachedMessage where
  message_id : String
  chat_id : String
  data : PyValue
  timestamp : Int
  ttl : Nat

/-- State of the in-memory backend: `self._cache`, a dict from chat id to
an `OrderedDict` of records, kept in recency order (head = least recently
touched). -/
abbrev MemCache := List (String × List CachedMessage)

/-- One row of the `cached_messages` table. -/
structure Row where
  rowid : Nat
  chat_id : String
  message_id : String
  message_data : Json
  timestamp : Int
  ttl : Nat

/-- One entry of the `messages_fts` FTS5 index: the rowid it is attached to
and the four indexed columns (text and sender extracted from the payload by
the triggers; `json_extract` yields SQL NULL when the field is absent). -/
structure FtsEntry where
  rowid : Nat
  chat_id : String
  message_id : String
  text_content : Option Json
  sender_name : Option Json

/-- State of one SQLite database file: the `cached_messages` rows, the
`messages_fts` entries, and the rows of the `schema_version` table (an
INTEGER PRIMARY KEY table, hence kept sorted ascending, which is the order
`SELECT version FROM schema_version LIMIT 1` scans). -/
structure SqliteDB where
  rows : List Row
  fts : List FtsEntry
  schema_version : List Int

/-- A fresh SQLite database file before any schema creation. -/
def emptySqliteFile : SqliteDB := ⟨[], [], []⟩

/-- Largest rowid present in the table (0 when empty); SQLite assigns a
fresh row the rowid one larger. -/
def maxRowid (rows : List Row) : Nat :=
  rows.foldl (fun a r => max a r.rowid) 0

/-- Projection a trigger inserts into `messages_fts` for a row:
`json_extract(message_data, '$.text')` and
`json_extract(message_data, '$.sender_name')`. -/
def ftsRowEntry (r : Row) : FtsEntry :=
  ⟨r.rowid, r.chat_id, r.message_id,
    json_extract r.message_data "text", json_extract r.message_data "sender_name"⟩

/-- Comparison used by `ORDER BY timestamp ASC` (eviction). -/
def timestampAsc (a b : Row) : Prop := a.timestamp ≤ b.timestamp

instance : DecidableRel timestampAsc := fun a b => Int.decLe a.timestamp b.timestamp

/-- Comparison used by `ORDER BY timestamp DESC` (retrieval). -/
def timestampDesc (a b : Row) : Prop := b.timestamp ≤ a.timestamp

instance : DecidableRel timestampDesc := fun a b => Int.decLe b.timestamp a.timestamp

/-- SQL `LIMIT ?` applied to an ordered result: a negative limit means no
limit in SQLite. -/
def sqlLimit (n : Int) (l : List Row) : List Row :=
  if n < 0 then l else l.take n.toNat

namespace SQLiteCache

/-- Constant `SQLiteCache.SCHEMA_VERSION` of the source. -/
def SCHEMA_VERSION : Int := 2

/-- Embedding of the `INSERT OR REPLACE INTO cached_messages ...` statement
of `add_message` together with the trigger activity it causes: the
conflicting primary-key row (if any) is deleted without firing the delete
trigger (`recursive_triggers` is off), the new row receives rowid
`max(rowid)+1` computed over the pre-statement table, and the AFTER INSERT
trigger appends the FTS projection of the new row. -/
def upsertRow (cfg : CacheConfig) (now : Int) (chat_id message_id : String)
    (message_json : Json) (db : SqliteDB) : SqliteDB :=
  let newRowid := maxRowid db.rows + 1
  let kept := db.rows.filter fun r => !(r.chat_id == chat_id && r.message_id == message_id)
  let newRow : Row := ⟨newRowid, chat_id, message_id, message_json, now, cfg.ttl_seconds⟩
  ⟨kept ++ [newRow], db.fts ++ [ftsRowEntry newRow], db.schema_version⟩

/-- Embedding of the eviction step of `add_message`: count the chat's rows;
if over `max_messages`, delete the oldest `count - max_messages` of them by
`ORDER BY timestamp ASC` (keyed by `message_id`, as the `DELETE ... WHERE
message_id IN (SELECT ...)` statement does); each deleted row fires the
AFTER DELETE trigger, which removes the FTS entry carrying its rowid. -/
def evictChat (cfg : CacheConfig) (chat_id : String) (db : SqliteDB) : SqliteDB :=
  let chatRows := db.rows.filter fun r => r.chat_id == chat_id
  let count := chatRows.length
  if cfg.max_messages < count then
    let to_delete := count - cfg.max_messages
    let victims := ((chatRows.insertionSort timestampAsc).take to_delete).map fun r => r.message_id
    let deletedRowids :=
      (db.rows.filter fun r => r.chat_id == chat_id && victims.contains r.message_id).map
        fun r => r.rowid
    ⟨db.rows.filter fun r => !(r.chat_id == chat_id && victims.contains r.message_id),
      db.fts.filter fun e => !(deletedRowids.contains e.rowid),
      db.schema_version⟩
  else db

/-- Embedding of `SQLiteCache.add_message`: serialize the payload — on
`TypeError` log and return without writing (the only exception `json.dumps`
raises on an acyclic value, and the only one the `except` clause catches) —
then upsert and evict, committing once. -/
def add_message (cfg : CacheConfig) (now : Int) (chat_id message_id : String)
    (message_data : PyValue) (db : SqliteDB) : Except PyErr SqliteDB :=
  match json_dumps message_data with
  | .error .typeError => .ok db
  | .error e => .error e
  | .ok message_json => .ok (evictChat cfg chat_id (upsertRow cfg now chat_id message_id message_json db))

/-- Row selection of `SQLiteCache.get_messages`: the source issues one of
two queries depending on `self.ttl` — with TTL filtering
(`WHERE chat_id = ? AND (? - timestamp) < ttl`) when `self.ttl > 0`, and
without it otherwise. -/
def selectRows (cfg : CacheConfig) (now : Int) (chat_id : String) (db : SqliteDB) : List Row :=
  if 0 < cfg.ttl_seconds then
    db.rows.filter fun r => r.chat_id == chat_id && decide (now - r.timestamp < (r.ttl : Int))
  else
    db.rows.filter fun r => r.chat_id == chat_id

/-- Embedding of `SQLiteCache.get_messages`: select the chat's (optionally
TTL-filtered) rows, order by `timestamp DESC`, append `LIMIT ?` only when
`limit` is truthy (`if limit:` — absent or 0 mean no limit), and decode
each payload. -/
def get_messages (cfg : CacheConfig) (now : Int) (chat_id : String) (limit : Option Int)
    (db : SqliteDB) : List PyValue :=
  let ordered := (selectRows cfg now chat_id db).insertionSort timestampDesc
  let limited :=
    match limit with
    | some n => if n ≠ 0 then sqlLimit n ordered else ordered
    | none => ordered
  limited.map fun r => json_loads r.message_data

/-- Predicate of the `DELETE FROM cached_messages WHERE (? - timestamp) >=
ttl` statement of `cleanup_expired`. -/
def expiredRow (now : Int) (r : Row) : Bool :=
  decide ((r.ttl : Int) ≤ now - r.timestamp)

/-- Embedding of `SQLiteCache.cleanup_expired`: returns 0 and changes
nothing when the configured `ttl_seconds` is 0, otherwise deletes every row
with `(now - timestamp) >= ttl` (each firing the delete trigger) and
returns the deleted count (`RETURNING chat_id`). -/
def cleanup_expired (cfg : CacheConfig) (now : Int) (db : SqliteDB) : Nat × SqliteDB :=
  if cfg.ttl_seconds = 0 then (0, db)
  else
    let victims := db.rows.filter (expiredRow now)
    let deletedRowids := victims.map fun r => r.rowid
    (victims.length,
      ⟨db.rows.filter fun r => !(expiredRow now r),
        db.fts.filter fun e => !(deletedRowids.contains e.rowid),
        db.schema_version⟩)

/-- Embedding of `SQLiteCache._migrate_schema`: read
`SELECT version FROM schema_version LIMIT 1`; absent row means fresh
database (no migration); a version below 2 triggers the FTS rebuild, whose
first statement `DELETE FROM messages_fts` raises `OperationalError`
against this external-content FTS5 declaration (the content table
`cached_messages` has no `text_content`/`sender_name` columns), so the
migration propagates an error; otherwise nothing happens. -/
def migrate_schema (db : SqliteDB) : Except PyErr SqliteDB :=
  match db.schema_version.head? with
  | none => .ok db
  | some v => if v < SCHEMA_VERSION then .error .operationalError else .ok db

/-- Insertion into the `schema_version` table by
`INSERT OR REPLACE INTO schema_version (version) VALUES (?)`: `version` is
the INTEGER PRIMARY KEY, so a duplicate value replaces in place and a new
value takes its sorted (rowid) position. -/
def versionInsert (v : Int) : List Int → List Int
  | [] => [v]
  | x :: tl => if v < x then v :: x :: tl else if v = x then x :: tl else x :: versionInsert v tl

/-- Embedding of `SQLiteCache._create_schema`: the CREATE TABLE / INDEX /
VIRTUAL TABLE / TRIGGER statements are all `IF NOT EXISTS` (no-ops on the
modelled content), then `_migrate_schema` runs, then the current
`SCHEMA_VERSION` is upserted into `schema_version`, then commit. -/
def create_schema (db : SqliteDB) : Except PyErr SqliteDB := do
  let db1 ← migrate_schema db
  .ok ⟨db1.rows, db1.fts, versionInsert SCHEMA_VERSION db1.schema_version⟩

/-- Embedding of `SQLiteCache.connect` acting on the database file: open
the file and run `_create_schema`. -/
def connect (db : SqliteDB) : Except PyErr SqliteDB :=
  create_schema db

/-- Run `connect` on a database file, keeping the file unchanged if the
call raised (used to thread states through sequences of calls). -/
def connectD (db : SqliteDB) : SqliteDB :=
  match connect db with
  | .ok d => d
  | .error _ => db

/-- Number of rows the `SELECT COUNT(*) ... WHERE chat_id = ?` query of the
source reports for a chat. -/
def chatCount (db : SqliteDB) (chat_id : String) : Nat :=
  (db.rows.filter fun r => r.chat_id == chat_id).length

/-- Run `add_message`, keeping the database unchanged if the call raised
(it never does — see the error-handling theorem). -/
def addMessageD (cfg : CacheConfig) (now : Int) (chat_id message_id : String)
    (message_data : PyValue) (db : SqliteDB) : SqliteDB :=
  match add_message cfg now chat_id message_id message_data db with
  | .ok d => d
  | .error _ => db

end SQLiteCache

/-- One `add_message` call of a recorded call sequence: the clock value at
the call and the three arguments. -/
structure WriteCall where
  now : Int
  chat_id : String
  message_id : String
  message_data : PyValue

/-- Fold a sequence of `add_message` calls over a SQLite database. -/
def SQLiteCache.runAdds (cfg : CacheConfig) (db : SqliteDB) (ws : List WriteCall) : SqliteDB :=
  ws.foldl (fun d w => SQLiteCache.addMessageD cfg w.now w.chat_id w.message_id w.message_data d) db

namespace MessageCache

/-- Embedding of `OrderedDict.move_to_end`: the entry for the key keeps its
stored fields and moves to the most-recent position. -/
def moveToEnd (l : List CachedMessage) (message_id : String) : List CachedMessage :=
  match l.find? (fun m => m.message_id == message_id) with
  | none => l
  | some entry => (l.filter fun m => !(m.message_id == message_id)) ++ [entry]

/-- Embedding of the `while len(chat_cache) > self.max_messages: del
chat_cache[next(iter(chat_cache))]` eviction loop: repeatedly drop the
least-recently-touched (head) entry. -/
def evictOldest (maxM : Nat) : List CachedMessage → List CachedMessage
  | [] => []
  | m :: tl => if maxM < (m :: tl).length then evictOldest maxM tl else m :: tl

/-- Write the chat's ordered map back into `self._cache` (a new chat is
appended in dict insertion order). -/
def memSet (st : MemCache) (chat_id : String) (l : List CachedMessage) : MemCache :=
  if st.any (fun p => p.1 == chat_id) then
    st.map fun p => if p.1 == chat_id then (p.1, l) else p
  else st ++ [(chat_id, l)]

/-- Embedding of `MessageCache.add_message` (in-memory path): create the
chat map if missing, build the new `CachedMessage`, then — if the key
already exists — `move_to_end` (the freshly built record is discarded, so
the stored payload, timestamp and ttl stay as they were), else append at
the tail; finally evict oldest entries while over `max_messages`. -/
def add_message (cfg : CacheConfig) (now : Int) (chat_id message_id : String)
    (message_data : PyValue) (st : MemCache) : MemCache :=
  let chat_cache := (st.lookup chat_id).getD []
  let cached_msg : CachedMessage := ⟨message_id, chat_id, message_data, now, cfg.ttl_seconds⟩
  let updated :=
    if chat_cache.any (fun m => m.message_id == message_id) then
      moveToEnd chat_cache message_id
    else chat_cache ++ [cached_msg]
  memSet st chat_id (evictOldest cfg.max_messages updated)

/-- Filter condition of the in-memory `get_messages` comprehension:
`self.ttl == 0 or (current_time - msg.timestamp) < self.ttl` — note it
tests the configured ttl, not the record's stored ttl. -/
def notExpired (cfg : CacheConfig) (now : Int) (msg : CachedMessage) : Bool :=
  cfg.ttl_seconds == 0 || decide (now - msg.timestamp < (cfg.ttl_seconds : Int))

/-- Python list slice `l[start:]` (negative start counts from the end,
clamped at 0). -/
def pySliceFrom (l : List PyValue) (start : Int) : List PyValue :=
  if start < 0 then l.drop ((l.length + start).toNat)
  else l.drop start.toNat

/-- Embedding of `MessageCache.get_messages` (in-memory path): empty for an
unknown chat; otherwise filter by `notExpired` in recency order, then — only
when `limit` is truthy (`if limit:`) — keep the trailing slice
`valid_messages[-limit:]`. -/
def get_messages (cfg : CacheConfig) (now : Int) (chat_id : String) (limit : Option Int)
    (st : MemCache) : List PyValue :=
  match st.lookup chat_id with
  | none => []
  | some chat_cache =>
    let valid_messages := (chat_cache.filter (notExpired cfg now)).map fun m => m.data
    match limit with
    | some n => if n ≠ 0 then pySliceFrom valid_messages (-n) else valid_messages
    | none => valid_messages

/-- Expiry test of the in-memory `cleanup_expired`:
`(current_time - msg.timestamp) >= self.ttl` (the configured ttl). -/
def expiredMsg (cfg : CacheConfig) (now : Int) (m : CachedMessage) : Bool :=
  decide ((cfg.ttl_seconds : Int) ≤ now - m.timestamp)

/-- Embedding of `MessageCache.cleanup_expired` (in-memory path): returns 0
immediately when the configured ttl is 0; otherwise, for every chat in
order, removes each expired record (counting them) and drops chats left
empty. -/
def cleanup_expired (cfg : CacheConfig) (now : Int) (st : MemCache) : Nat × MemCache :=
  if cfg.ttl_seconds = 0 then (0, st)
  else
    st.foldl
      (fun acc entry =>
        let kept := entry.2.filter fun m => !(expiredMsg cfg now m)
        let removed := (entry.2.filter (expiredMsg cfg now)).length
        (acc.1 + removed, if kept.isEmpty then acc.2 else acc.2 ++ [(entry.1, kept)]))
      (0, ([] : MemCache))

/-- Number of records currently stored for a chat. -/
def chatCount (st : MemCache) (chat_id : String) : Nat :=
  ((st.lookup chat_id).getD []).length

/-- Fold a sequence of `add_message` calls over a fresh in-memory cache. -/
def runAdds (cfg : CacheConfig) (ws : List WriteCall) : MemCache :=
  ws.foldl (fun st w => add_message cfg w.now w.chat_id w.message_id w.message_data st) []

end MessageCache

/-- Payload shaped like the repository's own test payloads: a dict with a
text field. -/
def textPayload (s : String) : PyValue := .pyDict [("text", .pyStr s)]

/-- Configuration of the eviction scenarios: `max_messages = 3`. -/
def cfgMax3 : CacheConfig := ⟨3, 0⟩

/-- Configuration of the update scenario: defaults comparable to the test
fixtures (`max_messages = 50`, `ttl_seconds = 60`). -/
def cfgStd : CacheConfig := ⟨50, 60⟩

/-- Configuration of an instance with expiration disabled. -/
def cfgTtl0 : CacheConfig := ⟨50, 0⟩

/-- Configuration of an instance with `ttl_seconds = 3`. -/
def cfgTtl3 : CacheConfig := ⟨50, 3⟩

/-- Messages 1..5 added in order to one chat at strictly increasing
times. -/
def writesOneToFive : List WriteCall :=
  [⟨1, "c", "1", textPayload "m1"⟩, ⟨2, "c", "2", textPayload "m2"⟩,
   ⟨3, "c", "3", textPayload "m3"⟩, ⟨4, "c", "4", textPayload "m4"⟩,
   ⟨5, "c", "5", textPayload "m5"⟩]

/-- Touch scenario: add 1, 2, 3, re-add 1 (update), then add 4. -/
def writesTouch : List WriteCall :=
  [⟨1, "c", "1", textPayload "m1"⟩, ⟨2, "c", "2", textPayload "m2"⟩,
   ⟨3, "c", "3", textPayload "m3"⟩, ⟨4, "c", "1", textPayload "m1-upd"⟩,
   ⟨5, "c", "4", textPayload "m4"⟩]

/-- In-memory state after adding key (c, m) with payload pOld and re-adding
it with payload pNew. -/
def memUpdSt : MemCache :=
  MessageCache.add_message cfgStd 2 "c" "m" (.pyStr "pNew")
    (MessageCache.add_message cfgStd 1 "c" "m" (.pyStr "pOld") [])

/-- SQLite state after the same two adds through the persistent backend. -/
def sqlUpdDB : SqliteDB :=
  SQLiteCache.addMessageD cfgStd 2 "c" "m" (.pyStr "pNew")
    (SQLiteCache.addMessageD cfgStd 1 "c" "m" (.pyStr "pOld")
      (SQLiteCache.connectD emptySqliteFile))

/-- SQLite database written by an instance configured with `ttl_seconds =
0` (so its one record carries stored ttl 0, meaning never expires); the
file is then opened by a second instance configured with `ttl_seconds = 3`,
which the durable backend permits. -/
def crossTtlDB : SqliteDB :=
  SQLiteCache.addMessageD cfgTtl0 100 "c" "m" (textPayload "hi")
    (SQLiteCache.connectD emptySqliteFile)

/-- SQLite state after `add_message` re-inserts the existing key (c, m)
with changed text, exercising the `INSERT OR REPLACE` path. -/
def reinsertDB : SqliteDB :=
  SQLiteCache.addMessageD cfgTtl0 200 "c" "m" (textPayload "new words")
    (SQLiteCache.addMessageD cfgTtl0 100 "c" "m" (textPayload "old words")
      (SQLiteCache.connectD emptySqliteFile))

/-! ## Properties of the JSON embedding -/

mutual

theorem json_loads_dumps (v : PyValue) (j : Json) (h : json_dumps v = .ok j) :
    json_loads j = v := by
  cases v with
  | pyNone => simp [json_dumps] at h; subst h; rfl
  | pyBool b => simp [json_dumps] at h; subst h; rfl
  | pyInt n => simp [json_dumps] at h; subst h; rfl
  | pyStr s => simp [json_dumps] at h; subst h; rfl
  | pyObj d => simp [json_dumps] at h
  | pyList xs =>
    simp [json_dumps, Except.map] at h
    cases hx : json_dumpsArr xs with
    | error e => rw [hx] at h; simp at h
    | ok js =>
      rw [hx] at h; simp at h; subst h
      simp [json_loads, json_loadsArr_dumpsArr xs js hx]
  | pyDict kvs =>
    simp [json_dumps, Except.map] at h
    cases hx : json_dumpsFieldList kvs with
    | error e => rw [hx] at h; simp at h
    | ok js =>
      rw [hx] at h; simp at h; subst h
      simp [json_loads, json_loadsFieldList_dumps kvs js hx]

theorem json_loadsArr_dumpsArr (xs : List PyValue) (js : List Json)
    (h : json_dumpsArr xs = .ok js) : json_loadsArr js = xs := by
  cases xs with
  | nil => simp [json_dumpsArr] at h; subst h; rfl
  | cons v tl =>
    simp [json_dumpsArr] at h
    cases hv : json_dumps v with
    | error e => rw [hv] at h; simp [Bind.bind, Except.bind] at h
    | ok j =>
      rw [hv] at h
      cases ht : json_dumpsArr tl with
      | error e => rw [ht] at h; simp [Bind.bind, Except.bind] at h
      | ok js' =>
        rw [ht] at h; simp [Bind.bind, Except.bind, pure, Except.pure] at h
        subst h
        simp [json_loadsArr, json_loads_dumps v j hv, json_loadsArr_dumpsArr tl js' ht]

theorem json_loadsFieldList_dumps (kvs : List (String × PyValue)) (js : List (String × Json))
    (h : json_dumpsFieldList kvs = .ok js) : json_loadsFieldList js = kvs := by
  cases kvs with
  | nil => simp [json_dumpsFieldList] at h; subst h; rfl
  | cons kv tl =>
    obtain ⟨k, v⟩ := kv
    simp [json_dumpsFieldList] at h
    cases hv : json_dumps v with
    | error e => rw [hv] at h; simp [Bind.bind, Except.bind] at h
    | ok j =>
      rw [hv] at h
      cases ht : json_dumpsFieldList tl with
      | error e => rw [ht] at h; simp [Bind.bind, Except.bind] at h
      | ok js' =>
        rw [ht] at h; simp [Bind.bind, Except.bind, pure, Except.pure] at h
        subst h
        simp [json_loadsFieldList, json_loads_dumps v j hv, json_loadsFieldList_dumps tl js' ht]

end

mutual

theorem json_dumps_error_eq (v : PyValue) (e : PyErr) (h : json_dumps v = .error e) :
    e = .typeError := by
  cases v with
  | pyNone => simp [json_dumps] at h
  | pyBool b => simp [json_dumps] at h
  | pyInt n => simp [json_dumps] at h
  | pyStr s => simp [json_dumps] at h
  | pyObj d => simp [json_dumps] at h; exact h.symm
  | pyList xs =>
    simp [json_dumps, Except.map] at h
    cases hx : json_dumpsArr xs with
    | error e' =>
      rw [hx] at h; simp at h
      exact h ▸ json_dumpsArr_error_eq xs e' hx
    | ok js => rw [hx] at h; simp at h
  | pyDict kvs =>
    simp [json_dumps, Except.map] at h
    cases hx : json_dumpsFieldList kvs with
    | error e' =>
      rw [hx] at h; simp at h
      exact h ▸ json_dumpsFieldList_error_eq kvs e' hx
    | ok js => rw [hx] at h; simp at h

theorem json_dumpsArr_error_eq (xs : List PyValue) (e : PyErr)
    (h : json_dumpsArr xs = .error e) : e = .typeError := by
  cases xs with
  | nil => simp [json_dumpsArr] at h
  | cons v tl =>
    simp [json_dumpsArr] at h
    cases hv : json_dumps v with
    | error e' =>
      rw [hv] at h; simp [Bind.bind, Except.bind] at h
      exact h ▸ json_dumps_error_eq v e' hv
    | ok j =>
      rw [hv] at h
      cases ht : json_dumpsArr tl with
      | error e' =>
        rw [ht] at h; simp [Bind.bind, Except.bind] at h
        exact h ▸ json_dumpsArr_error_eq tl e' ht
      | ok js' => rw [ht] at h; simp [Bind.bind, Except.bind, pure, Except.pure] at h

theorem json_dumpsFieldList_error_eq (kvs : List (String × PyValue)) (e : PyErr)
    (h : json_dumpsFieldList kvs = .error e) : e = .typeError := by
  cases kvs with
  | nil => simp [json_dumpsFieldList] at h
  | cons kv tl =>
    obtain ⟨k, v⟩ := kv
    simp [json_dumpsFieldList] at h
    cases hv : json_dumps v with
    | error e' =>
      rw [hv] at h; simp [Bind.bind, Except.bind] at h
      exact h ▸ json_dumps_error_eq v e' hv
    | ok j =>
      rw [hv] at h
      cases ht : json_dumpsFieldList tl with
      | error e' =>
        rw [ht] at h; simp [Bind.bind, Except.bind] at h
        exact h ▸ json_dumpsFieldList_error_eq tl e' ht
      | ok js' => rw [ht] at h; simp [Bind.bind, Except.bind, pure, Except.pure] at h

end

/-! ## Claim theorems: concrete scenarios -/

/-- C1 (code bug, in-memory backend): re-adding the existing key (c, m)
with a new payload leaves the chat's record count at 1 and creates no
second record, but the stored payload is NOT replaced — the in-memory
update branch only calls `move_to_end` and discards the freshly built
record, so `get_messages` still returns pOld; the persistent backend on the
same input does replace the payload (returns pNew), as the claim and the
repository's SQLite test require. -/
theorem inmem_update_discards_new_payload :
    MessageCache.get_messages cfgStd 2 "c" none memUpdSt = [.pyStr "pOld"] ∧
    MessageCache.chatCount memUpdSt "c" = 1 ∧
    SQLiteCache.get_messages cfgStd 2 "c" none sqlUpdDB = [.pyStr "pNew"] ∧
    SQLiteCache.chatCount sqlUpdDB "c" = 1 := by
  refine ⟨rfl, rfl, rfl, rfl⟩

/-- C2 (code bug, persistent backend): after `add_message` re-inserts the
existing key (c, m) via `INSERT OR REPLACE`, the `cached_messages` table
holds exactly one row for the key (the new rowid 2), but `messages_fts`
holds TWO entries for it — the REPLACE-path implicit delete does not fire
the AFTER DELETE trigger (`recursive_triggers` is never enabled), so the
stale entry for rowid 1, still carrying the old text, survives alongside
the new one; the index therefore does not contain exactly one entry per
row. -/
theorem fts_stale_entry_after_reinsert :
    (reinsertDB.rows.map fun r => (r.rowid, r.chat_id, r.message_id)) = [(2, "c", "m")] ∧
    (reinsertDB.fts.map fun e => (e.rowid, e.chat_id, e.message_id)) =
      [(1, "c", "m"), (2, "c", "m")] ∧
    (reinsertDB.fts.map fun e => e.text_content) =
      [some (.jStr "old words"), some (.jStr "new words")] := by
  refine ⟨rfl, rfl, rfl⟩

/-- C5: eviction is oldest-first. With `max_messages = 3`, adding messages
1..5 in order to one chat leaves exactly 3, 4, 5 in both backends; and in
the in-memory backend, adding 1, 2, 3, re-adding 1 (which touches it), then
adding 4 evicts 2 — the least recently touched — leaving 3, 1, 4. -/
theorem eviction_order_examples :
    (((MessageCache.runAdds cfgMax3 writesOneToFive).lookup "c").getD []).map
        (fun m => m.message_id) = ["3", "4", "5"] ∧
    ((SQLiteCache.runAdds cfgMax3 (SQLiteCache.connectD emptySqliteFile)
        writesOneToFive).rows.map fun r => r.message_id) = ["3", "4", "5"] ∧
    (((MessageCache.runAdds cfgMax3 writesTouch).lookup "c").getD []).map
        (fun m => m.message_id) = ["3", "1", "4"] := by
  refine ⟨rfl, rfl, rfl⟩

/-- C6 (counterexample): a record stored with ttl = 0 ("never expires") is
filtered out of `get_messages` by the persistent backend when the reading
instance is configured with `ttl_seconds = 3` — the query compares against
the stored ttl only because the configured ttl is positive, and then
`(now - timestamp) < 0` fails — contradicting the claim that a record with
ttl = 0 is never filtered out by age. -/
theorem sqlite_ttl_zero_record_excluded_cex :
    (crossTtlDB.rows.map fun r => r.ttl) = [0] ∧
    SQLiteCache.get_messages cfgTtl3 101 "c" none crossTtlDB = [] := by
  refine ⟨rfl, rfl⟩

/-- C7 (counterexample): `cleanup_expired` on an instance configured with
`ttl_seconds = 3` deletes the stored record whose own ttl is 0 (its age 1
satisfies `(now - timestamp) >= ttl` since the DELETE has no `ttl > 0`
guard per row) and reports removed count 1, although by the claim a ttl-0
record never meets its expiry bound, so the count should be 0 and the
record kept. -/
theorem sqlite_ttl_zero_record_reaped_cex :
    (crossTtlDB.rows.map fun r => r.ttl) = [0] ∧
    (SQLiteCache.cleanup_expired cfgTtl3 101 crossTtlDB).1 = 1 ∧
    (SQLiteCache.cleanup_expired cfgTtl3 101 crossTtlDB).2.rows = [] := by
  refine ⟨rfl, rfl, rfl⟩

/-- C8: the connect-time schema creation and migration is idempotent — if
one run succeeded, a second run against the resulting database returns it
completely unchanged (same `cached_messages` rows, same `messages_fts`
entries, same `schema_version`). -/
theorem schema_migration_idempotent (db db1 : SqliteDB)
    (h : SQLiteCache.create_schema db = .ok db1) :
    SQLiteCache.create_schema db1 = .ok db1 := by
  unfold SQLiteCache.create_schema SQLiteCache.migrate_schema SQLiteCache.SCHEMA_VERSION at h ⊢
  cases hv : db.schema_version.head? with
  | none =>
    rw [hv] at h
    simp [Bind.bind, Except.bind] at h
    have hnil : db.schema_version = [] := List.head?_eq_none_iff.mp hv
    rw [hnil] at h
    subst h
    simp [Bind.bind, Except.bind, SQLiteCache.versionInsert]
  | some v =>
    rw [hv] at h
    by_cases hlt : v < 2
    · simp [hlt, Bind.bind, Except.bind] at h
    · simp [hlt, Bind.bind, Except.bind] at h
      obtain ⟨tl, htl⟩ : ∃ tl, db.schema_version = v :: tl := by
        cases hsv : db.schema_version with
        | nil => rw [hsv] at hv; simp at hv
        | cons x xs => rw [hsv] at hv; simp at hv; exact ⟨xs, by rw [hv]⟩
      rw [htl] at h
      by_cases h2v : 2 < v
      · simp [SQLiteCache.versionInsert, h2v] at h
        subst h
        simp [Bind.bind, Except.bind, SQLiteCache.versionInsert]
      · have hv2 : v = 2 := by omega
        subst hv2
        simp [SQLiteCache.versionInsert] at h
        subst h
        simp [Bind.bind, Except.bind, SQLiteCache.versionInsert]

/-- Witness for C8: a successful first run on a database already carrying
schema version 2 (as produced by any earlier connect), rerun unchanged. -/
theorem schema_migration_idempotent_witness :
    SQLiteCache.create_schema ⟨[], [], [2]⟩ = .ok ⟨[], [], [2]⟩ :=
  schema_migration_idempotent emptySqliteFile ⟨[], [], [2]⟩ rfl

/-- C10: passing `limit = 0` to `get_messages` behaves exactly like
passing no limit in both backends, because the source tests the argument
with `if limit:` (truthiness), which 0 fails just as None does. -/
theorem limit_zero_no_limit (cfg : CacheConfig) (now : Int) (chat : String)
    (st : MemCache) (db : SqliteDB) :
    MessageCache.get_messages cfg now chat (some 0) st =
      MessageCache.get_messages cfg now chat none st ∧
    SQLiteCache.get_messages cfg now chat (some 0) db =
      SQLiteCache.get_messages cfg now chat none db := by
  constructor
  · unfold MessageCache.get_messages
    cases hl : st.lookup chat <;> simp [hl]
  · unfold SQLiteCache.get_messages
    simp

/-! ## Helper lemmas: generic lists -/

theorem length_filter_add_length_filter_not {α} (p : α → Bool) (l : List α) :
    (l.filter p).length + (l.filter fun a => !p a).length = l.length := by
  rw [← List.countP_eq_length_filter, ← List.countP_eq_length_filter]
  rw [List.length_eq_countP_add_countP p]
  congr 1
  refine List.countP_congr fun a _ => ?_
  cases hp : p a <;> simp [hp]

/-! ## Helper lemmas: in-memory backend -/

theorem evictOldest_length_le (maxM : Nat) (l : List CachedMessage) :
    (MessageCache.evictOldest maxM l).length ≤ maxM := by
  induction l with
  | nil => simp [MessageCache.evictOldest]
  | cons m tl ih =>
    rw [MessageCache.evictOldest]
    split
    · exact ih
    · rename_i h
      simp only [List.length_cons] at h ⊢
      omega

theorem mem_evictOldest (maxM : Nat) (l : List CachedMessage) (m : CachedMessage)
    (h : m ∈ MessageCache.evictOldest maxM l) : m ∈ l := by
  induction l with
  | nil => simp [MessageCache.evictOldest] at h
  | cons a tl ih =>
    rw [MessageCache.evictOldest] at h
    split at h
    · exact List.mem_cons_of_mem a (ih h)
    · exact h

theorem mem_moveToEnd (l : List CachedMessage) (mid : String) (m : CachedMessage)
    (h : m ∈ MessageCache.moveToEnd l mid) : m ∈ l := by
  unfold MessageCache.moveToEnd at h
  cases hf : l.find? (fun m => m.message_id == mid) with
  | none => rwa [hf] at h
  | some entry =>
    rw [hf] at h
    rcases List.mem_append.mp h with h1 | h1
    · exact List.mem_of_mem_filter h1
    · rcases List.mem_singleton.mp h1 with rfl
      exact List.mem_of_find?_eq_some hf

theorem lookup_map_replace (st : MemCache) (c : String) (l : List CachedMessage)
    (h : st.any (fun p => p.1 == c) = true) :
    (st.map fun p => if p.1 == c then (p.1, l) else p).lookup c = some l := by
  induction st with
  | nil => simp at h
  | cons p tl ih =>
    by_cases hp : p.1 = c
    · simp only [List.map_cons]
      rw [if_pos (by simp [hp] : ((p.1 == c) = true))]
      rw [List.lookup]
      simp [hp]
    · have hb : (p.1 == c) = false := by simp [hp]
      simp only [List.any_cons, hb, Bool.false_or] at h
      simp only [List.map_cons]
      rw [if_neg (by simp [hp] : ¬((p.1 == c) = true))]
      rw [List.lookup]
      have hcb : (c == p.1) = false := by
        simp only [beq_eq_false_iff_ne, ne_eq]
        exact fun hh => hp hh.symm
      rw [hcb]
      exact ih h

theorem lookup_append_single (st : MemCache) (c : String) (l : List CachedMessage)
    (h : st.any (fun p => p.1 == c) = false) :
    (st ++ [(c, l)]).lookup c = some l := by
  induction st with
  | nil => simp [List.lookup]
  | cons p tl ih =>
    simp only [List.any_cons, Bool.or_eq_false_iff] at h
    have hcb : (c == p.1) = false := by
      have h1 := h.1
      simp only [beq_eq_false_iff_ne, ne_eq] at h1 ⊢
      exact fun hh => h1 hh.symm
    simp only [List.cons_append]
    rw [List.lookup, hcb]
    exact ih h.2

theorem lookup_map_replace_other (st : MemCache) (c : String) (l : List CachedMessage)
    (chat : String) (h : ¬chat = c) :
    (st.map fun p => if p.1 == c then (p.1, l) else p).lookup chat = st.lookup chat := by
  induction st with
  | nil => simp
  | cons p tl ih =>
    by_cases hp : p.1 = c
    · simp only [List.map_cons]
      rw [if_pos (by simp [hp] : ((p.1 == c) = true))]
      have hcb : (chat == p.1) = false := by
        simp only [beq_eq_false_iff_ne, ne_eq]
        exact fun hh => h (hh.trans hp)
      rw [List.lookup, List.lookup, hcb]
      simp only [hcb]
      exact ih
    · simp only [List.map_cons]
      rw [if_neg (by simp [hp] : ¬((p.1 == c) = true))]
      rw [List.lookup, List.lookup]
      cases hcb : (chat == p.1) with
      | true => rfl
      | false => exact ih

theorem lookup_append_single_other (st : MemCache) (c : String) (l : List CachedMessage)
    (chat : String) (h : ¬chat = c) :
    (st ++ [(c, l)]).lookup chat = st.lookup chat := by
  induction st with
  | nil =>
    have hcb : (chat == c) = false := by simp [h]
    simp [List.lookup, hcb]
  | cons p tl ih =>
    simp only [List.cons_append]
    rw [List.lookup, List.lookup]
    cases hcb : (chat == p.1) with
    | true => rfl
    | false => exact ih

theorem lookup_memSet_self (st : MemCache) (c : String) (l : List CachedMessage) :
    (MessageCache.memSet st c l).lookup c = some l := by
  unfold MessageCache.memSet
  by_cases hany : st.any (fun p => p.1 == c) = true
  · rw [if_pos hany]
    exact lookup_map_replace st c l hany
  · rw [if_neg hany]
    exact lookup_append_single st c l (Bool.eq_false_iff.mpr hany)

theorem lookup_memSet_other (st : MemCache) (c : String) (l : List CachedMessage)
    (chat : String) (h : ¬chat = c) :
    (MessageCache.memSet st c l).lookup chat = st.lookup chat := by
  unfold MessageCache.memSet
  by_cases hany : st.any (fun p => p.1 == c) = true
  · rw [if_pos hany]
    exact lookup_map_replace_other st c l chat h
  · rw [if_neg hany]
    exact lookup_append_single_other st c l chat h


/-! ## Helper lemmas: persistent backend counts -/

theorem take_countP_ge (chatRows : List Row) (k : Nat) (hk : k ≤ chatRows.length) :
    k ≤ chatRows.countP (fun r =>
      (((chatRows.insertionSort timestampAsc).take k).map (fun r => r.message_id)).contains
        r.message_id) := by
  set pred := fun r : Row =>
    (((chatRows.insertionSort timestampAsc).take k).map (fun r => r.message_id)).contains
      r.message_id with hpred
  have hperm : List.Perm (chatRows.insertionSort timestampAsc) chatRows :=
    List.perm_insertionSort _ _
  have hslen : (chatRows.insertionSort timestampAsc).length = chatRows.length := hperm.length_eq
  have hlen : ((chatRows.insertionSort timestampAsc).take k).length = k := by
    rw [List.length_take]; omega
  have hall : ∀ r ∈ (chatRows.insertionSort timestampAsc).take k, pred r = true := by
    intro r hr
    exact List.elem_eq_true_of_mem (List.mem_map_of_mem _ hr)
  have h1 : ((chatRows.insertionSort timestampAsc).take k).countP pred = k := by
    rw [List.countP_eq_length.mpr hall, hlen]
  have h2 : ((chatRows.insertionSort timestampAsc).take k).countP pred ≤
      (chatRows.insertionSort timestampAsc).countP pred := by
    conv_rhs => rw [← List.take_append_drop k (chatRows.insertionSort timestampAsc)]
    rw [List.countP_append]
    omega
  have h3 : (chatRows.insertionSort timestampAsc).countP pred = chatRows.countP pred :=
    hperm.countP_eq pred
  omega

theorem chatCount_evictChat_le (cfg : CacheConfig) (c : String) (db : SqliteDB) :
    SQLiteCache.chatCount (SQLiteCache.evictChat cfg c db) c ≤ cfg.max_messages := by
  unfold SQLiteCache.evictChat
  by_cases hov : cfg.max_messages < (db.rows.filter (fun r => r.chat_id == c)).length
  · rw [if_pos hov]
    unfold SQLiteCache.chatCount
    set chatRows := db.rows.filter (fun r => r.chat_id == c) with hcr
    set k := chatRows.length - cfg.max_messages with hk
    set victims := ((chatRows.insertionSort timestampAsc).take k).map (fun r => r.message_id)
      with hv
    simp only
    rw [List.filter_filter]
    rw [← List.countP_eq_length_filter]
    have hsplit : db.rows.countP
        (fun r => (r.chat_id == c) && !(r.chat_id == c && victims.contains r.message_id)) =
        chatRows.countP (fun r => !(victims.contains r.message_id)) := by
      rw [hcr, List.countP_filter]
      refine List.countP_congr fun r _ => ?_
      cases hcc : (r.chat_id == c) <;> cases hcv : victims.contains r.message_id <;> simp [hcc, hcv]
    rw [hsplit]
    have hcompl : chatRows.countP (fun r => !(victims.contains r.message_id)) +
        chatRows.countP (fun r => victims.contains r.message_id) = chatRows.length := by
      rw [List.countP_eq_length_filter, List.countP_eq_length_filter]
      have := length_filter_add_length_filter_not (fun r : Row => victims.contains r.message_id)
        chatRows
      omega
    have hge : k ≤ chatRows.countP (fun r => victims.contains r.message_id) := by
      rw [hv, hk]
      exact take_countP_ge chatRows (chatRows.length - cfg.max_messages) (by omega)
    omega
  · rw [if_neg hov]
    unfold SQLiteCache.chatCount
    omega

theorem chatCount_evictChat_other (cfg : CacheConfig) (c : String) (db : SqliteDB)
    (chat : String) (h : ¬chat = c) :
    SQLiteCache.chatCount (SQLiteCache.evictChat cfg c db) chat =
      SQLiteCache.chatCount db chat := by
  unfold SQLiteCache.evictChat
  by_cases hov : cfg.max_messages < (db.rows.filter (fun r => r.chat_id == c)).length
  · rw [if_pos hov]
    unfold SQLiteCache.chatCount
    simp only
    rw [List.filter_filter]
    simp only [← List.countP_eq_length_filter]
    refine List.countP_congr fun r _ => ?_
    cases hcc : (r.chat_id == chat)
    · simp [hcc]
    · have hne : (r.chat_id == c) = false := by
        simp only [beq_iff_eq] at hcc
        simp only [beq_eq_false_iff_ne, ne_eq]
        rw [hcc]
        exact h
      simp [hcc, hne]
  · rw [if_neg hov]

theorem chatCount_upsertRow_other (cfg : CacheConfig) (now : Int) (c m : String) (j : Json)
    (db : SqliteDB) (chat : String) (h : ¬chat = c) :
    SQLiteCache.chatCount (SQLiteCache.upsertRow cfg now c m j db) chat =
      SQLiteCache.chatCount db chat := by
  unfold SQLiteCache.upsertRow SQLiteCache.chatCount
  simp only [List.filter_append]
  have hnew : ((⟨maxRowid db.rows + 1, c, m, j, now, cfg.ttl_seconds⟩ : Row).chat_id == chat)
      = false := by
    simp only [beq_eq_false_iff_ne, ne_eq]
    exact fun hh => h hh.symm
  rw [List.length_append]
  have h1 : (List.filter (fun r => r.chat_id == chat)
      [(⟨maxRowid db.rows + 1, c, m, j, now, cfg.ttl_seconds⟩ : Row)]).length = 0 := by
    simp [List.filter, hnew]
  rw [h1, List.filter_filter]
  simp only [← List.countP_eq_length_filter]
  have : db.rows.countP
      (fun r => (r.chat_id == chat) && !(r.chat_id == c && r.message_id == m)) =
      db.rows.countP (fun r => r.chat_id == chat) + 0 := by
    rw [Nat.add_zero]
    refine List.countP_congr fun r _ => ?_
    cases hcc : (r.chat_id == chat)
    · simp [hcc]
    · have : (r.chat_id == c) = false := by
        simp only [beq_iff_eq] at hcc
        simp only [beq_eq_false_iff_ne, ne_eq]
        rw [hcc]
        exact fun hh => h hh
      simp [hcc, this]
  omega


theorem chatCount_addMessageD_le (cfg : CacheConfig) (now : Int) (c m : String) (p : PyValue)
    (db : SqliteDB) (chat : String)
    (hInv : SQLiteCache.chatCount db chat ≤ cfg.max_messages) :
    SQLiteCache.chatCount (SQLiteCache.addMessageD cfg now c m p db) chat ≤
      cfg.max_messages := by
  unfold SQLiteCache.addMessageD SQLiteCache.add_message
  cases hd : json_dumps p with
  | error e =>
    cases e with
    | typeError => simpa using hInv
    | valueError => simpa using hInv
    | operationalError => simpa using hInv
  | ok j =>
    simp only
    by_cases hc : chat = c
    · subst hc
      exact chatCount_evictChat_le cfg chat (SQLiteCache.upsertRow cfg now chat m j db)
    · rw [chatCount_evictChat_other cfg c _ chat hc, chatCount_upsertRow_other cfg now c m j db chat hc]
      exact hInv

theorem chatCount_sql_foldl_le (cfg : CacheConfig) (ws : List WriteCall) :
    ∀ db : SqliteDB, (∀ ch, SQLiteCache.chatCount db ch ≤ cfg.max_messages) →
      ∀ ch, SQLiteCache.chatCount
        (ws.foldl (fun d w => SQLiteCache.addMessageD cfg w.now w.chat_id w.message_id
          w.message_data d) db) ch ≤ cfg.max_messages := by
  induction ws with
  | nil => intro db h ch; simpa using h ch
  | cons w tl ih =>
    intro db h ch
    simp only [List.foldl_cons]
    exact ih _ (fun ch2 => chatCount_addMessageD_le cfg w.now w.chat_id w.message_id
      w.message_data db ch2 (h ch2)) ch

theorem chatCount_mem_add_message_le (cfg : CacheConfig) (now : Int) (c mid : String)
    (p : PyValue) (st : MemCache) (chat : String)
    (hInv : MessageCache.chatCount st chat ≤ cfg.max_messages) :
    MessageCache.chatCount (MessageCache.add_message cfg now c mid p st) chat ≤
      cfg.max_messages := by
  unfold MessageCache.add_message MessageCache.chatCount
  by_cases hc : chat = c
  · subst hc
    rw [lookup_memSet_self]
    simp only [Option.getD_some]
    exact evictOldest_length_le _ _
  · rw [lookup_memSet_other _ _ _ _ hc]
    exact hInv

theorem chatCount_mem_foldl_le (cfg : CacheConfig) (ws : List WriteCall) :
    ∀ st : MemCache, (∀ ch, MessageCache.chatCount st ch ≤ cfg.max_messages) →
      ∀ ch, MessageCache.chatCount
        (ws.foldl (fun s w => MessageCache.add_message cfg w.now w.chat_id w.message_id
          w.message_data s) st) ch ≤ cfg.max_messages := by
  induction ws with
  | nil => intro st h ch; simpa using h ch
  | cons w tl ih =>
    intro st h ch
    simp only [List.foldl_cons]
    exact ih _ (fun ch2 => chatCount_mem_add_message_le cfg w.now w.chat_id w.message_id
      w.message_data st ch2 (h ch2)) ch

/-- C4: the capacity invariant holds in both backends — for every
configuration, every sequence of `add_message` calls against a fresh
backend, every prefix of that sequence (so after each call), and every
chat, the number of records stored for the chat is at most the configured
`max_messages`. -/
theorem capacity_invariant_both_backends (cfg : CacheConfig) (ws : List WriteCall) (i : Nat)
    (chat : String) :
    MessageCache.chatCount (MessageCache.runAdds cfg (ws.take i)) chat ≤ cfg.max_messages ∧
    SQLiteCache.chatCount (SQLiteCache.runAdds cfg (SQLiteCache.connectD emptySqliteFile)
      (ws.take i)) chat ≤ cfg.max_messages := by
  constructor
  · unfold MessageCache.runAdds
    refine chatCount_mem_foldl_le cfg (ws.take i) [] (fun ch => ?_) chat
    simp [MessageCache.chatCount]
  · unfold SQLiteCache.runAdds
    refine chatCount_sql_foldl_le cfg (ws.take i) _ (fun ch => ?_) chat
    simp [SQLiteCache.chatCount, SQLiteCache.connectD, SQLiteCache.connect,
      SQLiteCache.create_schema, SQLiteCache.migrate_schema, emptySqliteFile,
      Bind.bind, Except.bind]


/-! ## Helper lemmas: stability of the eviction sort and rowid freshness -/

theorem orderedInsert_append_last (a x : Row) (s : List Row) (h : timestampAsc a x) :
    List.orderedInsert timestampAsc a (s ++ [x]) =
      List.orderedInsert timestampAsc a s ++ [x] := by
  induction s with
  | nil =>
    simp only [List.nil_append, List.orderedInsert, List.orderedInsert_nil]
    rw [if_pos h]
    rfl
  | cons b s ih =>
    simp only [List.cons_append, List.orderedInsert, List.append_eq]
    by_cases hab : timestampAsc a b
    · rw [if_pos hab, if_pos hab]
      simp
    · rw [if_neg hab, if_neg hab, ih]
      simp

theorem insertionSort_append_last (l : List Row) (x : Row)
    (h : ∀ y ∈ l, timestampAsc y x) :
    List.insertionSort timestampAsc (l ++ [x]) =
      List.insertionSort timestampAsc l ++ [x] := by
  induction l with
  | nil => simp [List.insertionSort]
  | cons a l ih =>
    simp only [List.cons_append, List.insertionSort, List.append_eq]
    rw [ih (fun y hy => h y (List.mem_cons_of_mem a hy))]
    exact orderedInsert_append_last a x _ (h a (List.mem_cons_self a l))

theorem foldl_max_ge_init (rows : List Row) (a : Nat) :
    a ≤ rows.foldl (fun x r => max x r.rowid) a := by
  induction rows generalizing a with
  | nil => simp
  | cons r tl ih =>
    simp only [List.foldl_cons]
    exact le_trans (Nat.le_max_left a r.rowid) (ih (max a r.rowid))

theorem rowid_le_foldl_max (rows : List Row) (r : Row) (h : r ∈ rows) :
    ∀ a, r.rowid ≤ rows.foldl (fun x s => max x s.rowid) a := by
  induction rows with
  | nil => simp at h
  | cons s tl ih =>
    intro a
    simp only [List.foldl_cons]
    rcases List.mem_cons.mp h with rfl | h1
    · exact le_trans (Nat.le_max_right a r.rowid) (foldl_max_ge_init tl (max a r.rowid))
    · exact ih h1 (max a s.rowid)

theorem rowid_le_maxRowid (rows : List Row) (r : Row) (h : r ∈ rows) :
    r.rowid ≤ maxRowid rows := by
  unfold maxRowid
  exact rowid_le_foldl_max rows r h 0


/-- C3: `SQLiteCache.add_message` never propagates an exception.  For every
payload it returns normally: when the payload is JSON-serializable the call
performs its write (the upsert followed by eviction), and — when
`max_messages` is at least 1 and the clock did not run backwards — the
chat's row for the key afterwards carries exactly the new payload,
timestamp and ttl; when the payload cannot be JSON-encoded (`json.dumps`
raises `TypeError`, the only exception it raises on an acyclic value, and
the only one the `except` clause catches), the call logs, performs no
write, and leaves the database unchanged. -/
theorem sqlite_add_message_never_raises (cfg : CacheConfig) (now : Int) (c m : String)
    (p : PyValue) (db : SqliteDB) :
    ∃ db', SQLiteCache.add_message cfg now c m p db = .ok db' ∧
      ((∃ e, json_dumps p = .error e) → db' = db) ∧
      (∀ j, json_dumps p = .ok j →
        db' = SQLiteCache.evictChat cfg c (SQLiteCache.upsertRow cfg now c m j db) ∧
        (1 ≤ cfg.max_messages → (∀ r ∈ db.rows, r.timestamp ≤ now) →
          ∃ r ∈ db'.rows, r.chat_id = c ∧ r.message_id = m ∧ r.message_data = j ∧
            r.timestamp = now ∧ r.ttl = cfg.ttl_seconds)) := by
  cases hd : json_dumps p with
  | error e =>
    have he : e = .typeError := json_dumps_error_eq p e hd
    subst he
    refine ⟨db, ?_, fun _ => rfl, ?_⟩
    · simp [SQLiteCache.add_message, hd]
    · intro j hj
      simp at hj
  | ok j0 =>
    refine ⟨SQLiteCache.evictChat cfg c (SQLiteCache.upsertRow cfg now c m j0 db), ?_, ?_, ?_⟩
    · simp [SQLiteCache.add_message, hd]
    · rintro ⟨e, he⟩
      simp at he
    · intro j hj
      injection hj with hj
      subst hj
      refine ⟨rfl, ?_⟩
      intro hmax hts
      set newRow : Row := ⟨maxRowid db.rows + 1, c, m, j0, now, cfg.ttl_seconds⟩ with hnr
      set kept := db.rows.filter (fun r => !(r.chat_id == c && r.message_id == m)) with hkept
      have hup : (SQLiteCache.upsertRow cfg now c m j0 db).rows = kept ++ [newRow] := rfl
      set chatKept := kept.filter (fun r => r.chat_id == c) with hck
      have hchat : (kept ++ [newRow]).filter (fun r => r.chat_id == c) =
          chatKept ++ [newRow] := by
        rw [List.filter_append]
        congr 1
        simp [hnr]
      have htsk : ∀ y ∈ chatKept, timestampAsc y newRow := by
        intro y hy
        have h1 : y ∈ kept := List.mem_of_mem_filter hy
        have h2 : y ∈ db.rows := List.mem_of_mem_filter h1
        exact hts y h2
      have hsort : List.insertionSort timestampAsc (chatKept ++ [newRow]) =
          List.insertionSort timestampAsc chatKept ++ [newRow] :=
        insertionSort_append_last chatKept newRow htsk
      unfold SQLiteCache.evictChat
      rw [hup, hchat]
      by_cases hov : cfg.max_messages < (chatKept ++ [newRow]).length
      · rw [if_pos hov]
        set k := (chatKept ++ [newRow]).length - cfg.max_messages with hkdef
        have hslen : (List.insertionSort timestampAsc chatKept).length = chatKept.length :=
          (List.perm_insertionSort timestampAsc chatKept).length_eq
        have hkle : k ≤ chatKept.length := by
          simp only [hkdef, List.length_append, List.length_cons, List.length_nil]
          omega
        have htake : (List.insertionSort timestampAsc (chatKept ++ [newRow])).take k =
            (List.insertionSort timestampAsc chatKept).take k := by
          rw [hsort]
          exact List.take_append_of_le_length (by omega)
        set victims := ((List.insertionSort timestampAsc (chatKept ++ [newRow])).take k).map
          (fun r => r.message_id) with hvic
        have hmnot : ¬ m ∈ victims := by
          intro hmem
          rw [hvic, htake] at hmem
          rcases List.mem_map.mp hmem with ⟨y, hy, hym⟩
          have h1 : y ∈ List.insertionSort timestampAsc chatKept := List.take_subset _ _ hy
          have h2 : y ∈ chatKept := (List.mem_insertionSort timestampAsc).mp h1
          have h3 : y ∈ kept := List.mem_of_mem_filter h2
          have h4 : (y.chat_id == c) = true := by
            have := List.mem_filter.mp (hck ▸ h2)
            exact this.2
          have h5 : (!(y.chat_id == c && y.message_id == m)) = true := by
            have := List.mem_filter.mp (hkept ▸ h3)
            exact this.2
          rw [h4] at h5
          simp at h5
          exact h5 (by rw [hym])
        have hcont : victims.contains newRow.message_id = false := by
          rw [Bool.eq_false_iff]
          intro hcc
          exact hmnot (List.mem_of_elem_eq_true hcc)
        refine ⟨newRow, ?_, rfl, rfl, rfl, rfl, rfl⟩
        simp only
        refine List.mem_filter.mpr ⟨List.mem_append_right kept (List.mem_singleton_self newRow), ?_⟩
        rw [hcont]
        simp
      · rw [if_neg hov]
        exact ⟨newRow, List.mem_append_right kept (List.mem_singleton_self newRow),
          rfl, rfl, rfl, rfl, rfl⟩


/-- Witness for C3 at concrete inputs: a non-serializable payload is
dropped leaving the fresh database unchanged, and a serializable payload
lands as the row for its key. -/
theorem sqlite_add_message_never_raises_witness :
    (∃ db', SQLiteCache.add_message ⟨3, 0⟩ 5 "c" "m" (.pyObj "socket") emptySqliteFile =
        .ok db' ∧ db' = emptySqliteFile) ∧
    (∃ db', SQLiteCache.add_message ⟨3, 0⟩ 5 "c" "m" (.pyStr "x") emptySqliteFile =
        .ok db' ∧ ∃ r ∈ db'.rows, r.chat_id = "c" ∧ r.message_id = "m" ∧
          r.message_data = .jStr "x" ∧ r.timestamp = 5 ∧ r.ttl = 0) := by
  constructor
  · obtain ⟨db', h1, h2, h3⟩ :=
      sqlite_add_message_never_raises ⟨3, 0⟩ 5 "c" "m" (.pyObj "socket") emptySqliteFile
    exact ⟨db', h1, h2 ⟨.typeError, rfl⟩⟩
  · obtain ⟨db', h1, h2, h3⟩ :=
      sqlite_add_message_never_raises ⟨3, 0⟩ 5 "c" "m" (.pyStr "x") emptySqliteFile
    obtain ⟨hdb, hsurv⟩ := h3 (.jStr "x") rfl
    refine ⟨db', h1, hsurv (by decide) ?_⟩
    intro r hr
    cases hr

/-! ## Helper lemmas: durability of the persistent backend -/

theorem schema_version_addMessageD (cfg : CacheConfig) (now : Int) (c m : String)
    (p : PyValue) (db : SqliteDB) :
    (SQLiteCache.addMessageD cfg now c m p db).schema_version = db.schema_version := by
  unfold SQLiteCache.addMessageD SQLiteCache.add_message
  cases hd : json_dumps p with
  | error e => cases e <;> simp
  | ok j =>
    simp only
    unfold SQLiteCache.evictChat SQLiteCache.upsertRow
    dsimp only
    split <;> rfl

theorem schema_version_runAdds (cfg : CacheConfig) (ws : List WriteCall) :
    ∀ db0 : SqliteDB,
      (SQLiteCache.runAdds cfg db0 ws).schema_version = db0.schema_version := by
  induction ws with
  | nil => intro db0; rfl
  | cons w tl ih =>
    intro db0
    unfold SQLiteCache.runAdds at ih ⊢
    rw [List.foldl_cons, ih, schema_version_addMessageD]

theorem connect_version_two (db : SqliteDB) (h : db.schema_version = [2]) :
    SQLiteCache.connect db = .ok db := by
  obtain ⟨rows, fts, ver⟩ := db
  simp only at h
  subst h
  unfold SQLiteCache.connect SQLiteCache.create_schema SQLiteCache.migrate_schema
  simp [SQLiteCache.SCHEMA_VERSION, SQLiteCache.versionInsert, Bind.bind, Except.bind]

theorem mem_rows_addMessageD (cfg : CacheConfig) (now : Int) (c m : String) (p : PyValue)
    (db : SqliteDB) (r : Row)
    (h : r ∈ (SQLiteCache.addMessageD cfg now c m p db).rows) :
    r ∈ db.rows ∨ (r.chat_id = c ∧ json_loads r.message_data = p) := by
  unfold SQLiteCache.addMessageD SQLiteCache.add_message at h
  cases hd : json_dumps p with
  | error e =>
    rw [hd] at h
    cases e <;> (simp only at h; exact .inl h)
  | ok j =>
    rw [hd] at h
    simp only at h
    have h1 : r ∈ (SQLiteCache.upsertRow cfg now c m j db).rows := by
      unfold SQLiteCache.evictChat at h
      dsimp only at h
      split at h
      · exact List.mem_of_mem_filter h
      · exact h
    unfold SQLiteCache.upsertRow at h1
    simp only at h1
    rcases List.mem_append.mp h1 with h2 | h2
    · exact .inl (List.mem_of_mem_filter h2)
    · rcases List.mem_singleton.mp h2 with rfl
      exact .inr ⟨rfl, json_loads_dumps p j hd⟩

theorem mem_rows_runAdds (cfg : CacheConfig) (ws : List WriteCall) :
    ∀ (db0 : SqliteDB) (r : Row), r ∈ (SQLiteCache.runAdds cfg db0 ws).rows →
      r ∈ db0.rows ∨
        ∃ w ∈ ws, r.chat_id = w.chat_id ∧ json_loads r.message_data = w.message_data := by
  induction ws with
  | nil =>
    intro db0 r h
    exact .inl (by simpa [SQLiteCache.runAdds] using h)
  | cons w tl ih =>
    intro db0 r h
    unfold SQLiteCache.runAdds at h
    rw [List.foldl_cons] at h
    rcases ih (SQLiteCache.addMessageD cfg w.now w.chat_id w.message_id w.message_data db0) r h
        with h1 | ⟨w2, hw2, hp⟩
    · rcases mem_rows_addMessageD cfg w.now w.chat_id w.message_id w.message_data db0 r h1
          with h2 | h2
      · exact .inl h2
      · exact .inr ⟨w, List.mem_cons_self w tl, h2⟩
    · exact .inr ⟨w2, List.mem_cons_of_mem w hw2, hp⟩

theorem mem_get_messages (cfg : CacheConfig) (now : Int) (chat : String) (limit : Option Int)
    (db : SqliteDB) (p : PyValue) (h : p ∈ SQLiteCache.get_messages cfg now chat limit db) :
    ∃ r ∈ db.rows, r.chat_id = chat ∧ p = json_loads r.message_data := by
  unfold SQLiteCache.get_messages at h
  simp only at h
  rcases List.mem_map.mp h with ⟨r, hr, hpr⟩
  have hr2 : r ∈ (SQLiteCache.selectRows cfg now chat db).insertionSort timestampDesc := by
    cases limit with
    | none => exact hr
    | some n =>
      dsimp only at hr
      by_cases hn : n ≠ 0
      · rw [if_pos hn] at hr
        unfold sqlLimit at hr
        split at hr
        · exact hr
        · exact List.take_subset _ _ hr
      · rw [if_neg hn] at hr
        exact hr
  have hr3 : r ∈ SQLiteCache.selectRows cfg now chat db :=
    (List.mem_insertionSort timestampDesc).mp hr2
  unfold SQLiteCache.selectRows at hr3
  split at hr3
  · have h4 := List.mem_filter.mp hr3
    have h5 := h4.2
    simp only [Bool.and_eq_true, beq_iff_eq] at h5
    exact ⟨r, h4.1, h5.1, hpr.symm⟩
  · have h4 := List.mem_filter.mp hr3
    have h5 := h4.2
    simp only [beq_iff_eq] at h5
    exact ⟨r, h4.1, h5, hpr.symm⟩

/-- C9: durability round-trip.  For any sequence of `add_message` writes
through one instance of the persistent backend starting from a fresh
database file, closing the instance (which does not alter the file) and
running a new instance's `connect` against the same file returns the file
completely unchanged — so every later read sees exactly what the first
instance would have seen — and every payload `get_messages` then yields is
exactly the payload of one of the recorded writes for that chat, unchanged
(decoding inverts the stored serialization). -/
theorem durability_roundtrip (cfg : CacheConfig) (ws : List WriteCall) (now : Int)
    (chat : String) (limit : Option Int) :
    SQLiteCache.connect (SQLiteCache.runAdds cfg (SQLiteCache.connectD emptySqliteFile) ws) =
      .ok (SQLiteCache.runAdds cfg (SQLiteCache.connectD emptySqliteFile) ws) ∧
    ∀ p ∈ SQLiteCache.get_messages cfg now chat limit
        (SQLiteCache.runAdds cfg (SQLiteCache.connectD emptySqliteFile) ws),
      ∃ w ∈ ws, w.chat_id = chat ∧ p = w.message_data := by
  have hver : (SQLiteCache.runAdds cfg (SQLiteCache.connectD emptySqliteFile)
      ws).schema_version = [2] := by
    rw [schema_version_runAdds]
    rfl
  constructor
  · exact connect_version_two _ hver
  · intro p hp
    rcases mem_get_messages cfg now chat limit _ p hp with ⟨r, hr, hchat, hpr⟩
    rcases mem_rows_runAdds cfg ws _ r hr with h1 | ⟨w, hw, hc, hd⟩
    · simp [SQLiteCache.connectD, SQLiteCache.connect, SQLiteCache.create_schema,
        SQLiteCache.migrate_schema, emptySqliteFile, Bind.bind, Except.bind] at h1
    · exact ⟨w, hw, hc.symm.trans hchat, hpr.trans hd⟩

/-- Witness for C9 at a concrete write list: the reopened database yields
the single previously written payload unchanged. -/
theorem durability_roundtrip_witness :
    ∃ w ∈ [(⟨1, "c", "m", textPayload "hi"⟩ : WriteCall)],
      w.chat_id = "c" ∧ textPayload "hi" = w.message_data :=
  (durability_roundtrip ⟨3, 0⟩ [⟨1, "c", "m", textPayload "hi"⟩] 2 "c" none).2
    (textPayload "hi") (List.mem_singleton.mpr rfl)


/-! ## Helper lemmas: stored ttl of reachable in-memory records -/

theorem ttl_mem_add_message (cfg : CacheConfig) (now : Int) (c mid : String) (p : PyValue)
    (st : MemCache)
    (hInv : ∀ chat l, st.lookup chat = some l → ∀ m ∈ l, m.ttl = cfg.ttl_seconds) :
    ∀ chat l, (MessageCache.add_message cfg now c mid p st).lookup chat = some l →
      ∀ m ∈ l, m.ttl = cfg.ttl_seconds := by
  intro chat l hl m hm
  unfold MessageCache.add_message at hl
  by_cases hc : chat = c
  · subst hc
    rw [lookup_memSet_self] at hl
    injection hl with hl
    subst hl
    have hm1 := mem_evictOldest _ _ _ hm
    by_cases hany : ((st.lookup chat).getD []).any (fun x => x.message_id == mid) = true
    · rw [if_pos hany] at hm1
      have hm2 := mem_moveToEnd _ _ _ hm1
      cases hsl : st.lookup chat with
      | none => rw [hsl] at hm2; cases hm2
      | some l0 => exact hInv chat l0 hsl m (by rwa [hsl] at hm2)
    · rw [if_neg hany] at hm1
      rcases List.mem_append.mp hm1 with h2 | h2
      · cases hsl : st.lookup chat with
        | none => rw [hsl] at h2; cases h2
        | some l0 => exact hInv chat l0 hsl m (by rwa [hsl] at h2)
      · rcases List.mem_singleton.mp h2 with rfl
        rfl
  · rw [lookup_memSet_other _ _ _ _ hc] at hl
    exact hInv chat l hl m hm

theorem ttl_mem_foldl (cfg : CacheConfig) (ws : List WriteCall) :
    ∀ st : MemCache,
      (∀ chat l, st.lookup chat = some l → ∀ m ∈ l, m.ttl = cfg.ttl_seconds) →
      ∀ chat l, (ws.foldl (fun s w => MessageCache.add_message cfg w.now w.chat_id
          w.message_id w.message_data s) st).lookup chat = some l →
        ∀ m ∈ l, m.ttl = cfg.ttl_seconds := by
  induction ws with
  | nil => intro st h chat l hl; exact h chat l hl
  | cons w tl ih =>
    intro st h chat l hl
    rw [List.foldl_cons] at hl
    exact ih _ (ttl_mem_add_message cfg w.now w.chat_id w.message_id w.message_data st h)
      chat l hl

/-- C6 (amended): the exclusion test of `get_messages` is driven by the
instance's configured `ttl_seconds`, not purely by the record's stored ttl.
Persistent backend: a row is selected iff it belongs to the chat and
(`ttl_seconds = 0`, or `now - timestamp < ` the row's stored ttl) — so with
`ttl_seconds = 0` nothing is excluded by age, and with `ttl_seconds > 0` a
row is excluded exactly when `now - timestamp >=` its stored ttl (hence a
stored row with ttl 0 is then always excluded once `now >= timestamp`).
In-memory backend: the filter compares against the configured ttl, and
every record reachable through `add_message` stores exactly that ttl, so
for those records the claim's per-record reading holds: a record is
excluded iff its ttl is positive and `now - timestamp >=` its ttl. -/
theorem read_expiry_characterization :
    (∀ (cfg : CacheConfig) (now : Int) (chat : String) (db : SqliteDB) (r : Row),
      r ∈ SQLiteCache.selectRows cfg now chat db ↔
        (r ∈ db.rows ∧ r.chat_id = chat ∧
          (cfg.ttl_seconds = 0 ∨ now - r.timestamp < (r.ttl : Int)))) ∧
    (∀ (cfg : CacheConfig) (ws : List WriteCall) (chat : String) (l : List CachedMessage)
        (m : CachedMessage) (now : Int),
      (MessageCache.runAdds cfg ws).lookup chat = some l → m ∈ l →
        (MessageCache.notExpired cfg now m = false ↔
          (0 < m.ttl ∧ (m.ttl : Int) ≤ now - m.timestamp))) := by
  constructor
  · intro cfg now chat db r
    unfold SQLiteCache.selectRows
    split
    · rename_i hpos
      rw [List.mem_filter]
      simp only [Bool.and_eq_true, beq_iff_eq, decide_eq_true_eq]
      constructor
      · rintro ⟨h1, h2, h3⟩
        exact ⟨h1, h2, Or.inr h3⟩
      · rintro ⟨h1, h2, h3 | h3⟩
        · omega
        · exact ⟨h1, h2, h3⟩
    · rename_i hz
      rw [List.mem_filter]
      simp only [beq_iff_eq]
      constructor
      · rintro ⟨h1, h2⟩
        exact ⟨h1, h2, Or.inl (by omega)⟩
      · rintro ⟨h1, h2, h3⟩
        exact ⟨h1, h2⟩
  · intro cfg ws chat l m now hl hm
    have httl : m.ttl = cfg.ttl_seconds := by
      refine ttl_mem_foldl cfg ws [] ?_ chat l ?_ m hm
      · intro chat2 l2 hl2
        simp at hl2
      · exact hl
    rw [httl]
    unfold MessageCache.notExpired
    simp only [Bool.or_eq_false_iff, beq_eq_false_iff_ne, ne_eq, decide_eq_false_iff_not,
      not_lt]
    omega

/-- Witness for C6 (amended): a record written by an instance configured
with ttl 60 is excluded at age 100. -/
theorem read_expiry_characterization_witness :
    MessageCache.notExpired ⟨3, 60⟩ 100 ⟨"m", "c", .pyNone, 0, 60⟩ = false :=
  (read_expiry_characterization.2 ⟨3, 60⟩ [⟨0, "c", "m", .pyNone⟩] "c"
      [⟨"m", "c", .pyNone, 0, 60⟩] ⟨"m", "c", .pyNone, 0, 60⟩ 100 rfl
      (List.mem_singleton.mpr rfl)).mpr ⟨by decide, by decide⟩

/-! ## Helper lemma: the in-memory cleanup fold -/

theorem cleanup_foldl_spec (cfg : CacheConfig) (now : Int) (st : MemCache) :
    ∀ acc : Nat × MemCache,
      st.foldl (fun acc entry =>
        let kept := entry.2.filter fun m => !(MessageCache.expiredMsg cfg now m)
        let removed := (entry.2.filter (MessageCache.expiredMsg cfg now)).length
        (acc.1 + removed, if kept.isEmpty then acc.2 else acc.2 ++ [(entry.1, kept)])) acc =
      (acc.1 + (st.map fun e => (e.2.filter (MessageCache.expiredMsg cfg now)).length).sum,
        acc.2 ++ st.filterMap fun e =>
          let kept := e.2.filter fun m => !(MessageCache.expiredMsg cfg now m)
          if kept.isEmpty then none else some (e.1, kept)) := by
  induction st with
  | nil => intro acc; simp
  | cons e tl ih =>
    intro acc
    rw [List.foldl_cons, ih]
    simp only [List.map_cons, List.sum_cons, List.filterMap_cons]
    by_cases hk : (e.2.filter fun m => !(MessageCache.expiredMsg cfg now m)).isEmpty = true
    · rw [if_pos hk, if_pos hk]
      refine Prod.ext ?_ ?_
      · simp [Nat.add_assoc]
      · simp
    · rw [if_neg hk, if_neg hk]
      refine Prod.ext ?_ ?_
      · simp [Nat.add_assoc]
      · simp

/-- C7 (amended): `cleanup_expired` returns 0 and leaves the state
completely unchanged in both backends when the configured `ttl_seconds` is
0.  Otherwise the expiry test is `(now - timestamp) >= ttl` with no
per-row `ttl > 0` guard: the persistent backend removes exactly the rows
satisfying it against their stored ttl (including rows whose stored ttl is
0) and returns their count, with removed count plus survivors equal to the
original row count; the in-memory backend removes per chat exactly the
records aged past the configured ttl (which equals the stored ttl of every
record this instance created), returns the total removed, and drops chats
left empty. -/
theorem cleanup_expired_characterization :
    (∀ (cfg : CacheConfig) (now : Int) (db : SqliteDB) (st : MemCache), cfg.ttl_seconds = 0 →
      SQLiteCache.cleanup_expired cfg now db = (0, db) ∧
      MessageCache.cleanup_expired cfg now st = (0, st)) ∧
    (∀ (cfg : CacheConfig) (now : Int) (db : SqliteDB), ¬cfg.ttl_seconds = 0 →
      (SQLiteCache.cleanup_expired cfg now db).1 =
        (db.rows.filter (SQLiteCache.expiredRow now)).length ∧
      (SQLiteCache.cleanup_expired cfg now db).2.rows =
        db.rows.filter (fun r => !(SQLiteCache.expiredRow now r)) ∧
      (SQLiteCache.cleanup_expired cfg now db).1 +
        (SQLiteCache.cleanup_expired cfg now db).2.rows.length = db.rows.length) ∧
    (∀ (cfg : CacheConfig) (now : Int) (st : MemCache), ¬cfg.ttl_seconds = 0 →
      MessageCache.cleanup_expired cfg now st =
        ((st.map fun e => (e.2.filter (MessageCache.expiredMsg cfg now)).length).sum,
          st.filterMap fun e =>
            let kept := e.2.filter fun m => !(MessageCache.expiredMsg cfg now m)
            if kept.isEmpty then none else some (e.1, kept))) := by
  refine ⟨?_, ?_, ?_⟩
  · intro cfg now db st h
    constructor
    · unfold SQLiteCache.cleanup_expired
      rw [if_pos h]
    · unfold MessageCache.cleanup_expired
      rw [if_pos h]
  · intro cfg now db h
    unfold SQLiteCache.cleanup_expired
    rw [if_neg h]
    refine ⟨rfl, rfl, ?_⟩
    simp only
    exact length_filter_add_length_filter_not (SQLiteCache.expiredRow now) db.rows
  · intro cfg now st h
    unfold MessageCache.cleanup_expired
    rw [if_neg h]
    rw [cleanup_foldl_spec cfg now st (0, ([] : MemCache))]
    simp

/-- Witness for C7 (amended) at concrete states: an instance with
expiration disabled changes nothing, and an instance with ttl 3 removes the
stored ttl-0 row while count plus survivors add up. -/
theorem cleanup_expired_characterization_witness :
    SQLiteCache.cleanup_expired cfgTtl0 101 crossTtlDB = (0, crossTtlDB) ∧
    (SQLiteCache.cleanup_expired cfgTtl3 101 crossTtlDB).1 +
      (SQLiteCache.cleanup_expired cfgTtl3 101 crossTtlDB).2.rows.length =
        crossTtlDB.rows.length := by
  constructor
  · exact (cleanup_expired_characterization.1 cfgTtl0 101 crossTtlDB [] rfl).1
  · exact (cleanup_expired_characterization.2.1 cfgTtl3 101 crossTtlDB (by decide)).2.2

end Tlgrm
